import Mathlib

/-!
Shallow embedding of the GDP analytics engine of this repository
(`data_processor.py`): dataset rows, growth rates, growth summary,
series statistics, top-N ranking, correlation matrix, world statistics
and the module-level average helpers.  A missing (NaN) cell is `none`;
present values are exact rationals.  Standard deviations are modelled by
their squares (the variances) to stay in `ℚ`: the source takes a square
root at the very end, which is injective on nonnegative reals, so every
population-vs-sample comparison is faithfully decided at the variance
level.
-/

namespace GDP

/-- A dataset row (`self.df` row): country name, continent, and the
year-keyed GDP cells; `none` models a missing (NaN) cell. -/
structure Row where
  name : String
  continent : String
  gdp : List (Int × Option ℚ)
deriving DecidableEq

instance : Inhabited Row := ⟨⟨"", "", []⟩⟩

/-- The row's cell in a year column (`row[year]`); an absent column is
read as missing. -/
def Row.val (r : Row) (y : Int) : Option ℚ :=
  match r.gdp.lookup y with
  | some v => v
  | none => none

/-- Python `reduce(lambda a, b: a + b, l)`: left fold of `+` seeded with
the head (callers guard against the empty list; `0` stands for the
unreached empty case). -/
def reduceSum : List ℚ → ℚ
  | [] => 0
  | x :: xs => xs.foldl (· + ·) x

/-- Python `reduce(lambda a, b: a if a > b else b, l)`. -/
def reduceMax : List ℚ → ℚ
  | [] => 0
  | x :: xs => xs.foldl (fun a b => if b < a then a else b) x

/-- Python `reduce(lambda a, b: a if a < b else b, l)`. -/
def reduceMin : List ℚ → ℚ
  | [] => 0
  | x :: xs => xs.foldl (fun a b => if a < b then a else b) x

/-! ### Growth rates (`calculate_growth_rates`) -/

/-- Source `list(zip(gdp_values[:-1], gdp_values[1:]))`. -/
def value_pairs (vs : List (Option ℚ)) : List (Option ℚ × Option ℚ) :=
  vs.zip vs.tail

/-- Source `list(zip(years[:-1], years[1:]))`. -/
def year_pairs (ys : List Int) : List (Int × Int) :=
  ys.zip ys.tail

/-- The body of the `map` in `calculate_growth_rates`: emit the rate
tagged with the pair's second year when both values are present and the
first is nonzero, otherwise a `None` placeholder with the year. -/
def growthStep (p : Option ℚ × Option ℚ) (y : Int) : Option ℚ × Int :=
  match p with
  | (some a, some b) => if a ≠ 0 then (some (((b - a) / a) * 100), y) else (none, y)
  | _ => (none, y)

/-- Embeds `growth_data`: map over the shared index range of the two pair
lists, as the source does (`range(len(value_pairs))` indexing both). -/
def growth_data (vs : List (Option ℚ)) (ys : List Int) : List (Option ℚ × Int) :=
  (List.range (value_pairs vs).length).map fun i =>
    growthStep ((value_pairs vs).getD i (none, none)) (((year_pairs ys).getD i (0, 0)).2)

/-- Embeds `calculate_growth_rates`: drop the `None` placeholders and split the
survivors into the rate list and the year list. -/
def calculate_growth_rates (vs : List (Option ℚ)) (ys : List Int) : List ℚ × List Int :=
  let valid := (growth_data vs ys).filter (fun x => x.1.isSome)
  (valid.filterMap (·.1), valid.map (·.2))

/-- Spec-side description of the growth-rate pass: over the adjacent
pairs zipped with the tail of the years, keep exactly the pairs with
both values present and a nonzero first value, emitting the percentage
rate tagged with the second year. -/
def growthPairsSpec (vs : List (Option ℚ)) (ys : List Int) : List (ℚ × Int) :=
  ((vs.zip vs.tail).zip ys.tail).filterMap fun p =>
    match p.1 with
    | (some a, some b) => if a ≠ 0 then some ((((b - a) / a) * 100), p.2) else none
    | _ => none

/-! ### Growth summary (`calculate_growth_summary`) -/

/-- Source `next((g for g in gdp_values if not np.isnan(g)), None)`. -/
def firstValid (vs : List (Option ℚ)) : Option ℚ :=
  (vs.filterMap id).head?

/-- Source `next((g for g in reversed(gdp_values) if not np.isnan(g)), None)`. -/
def lastValid (vs : List (Option ℚ)) : Option ℚ :=
  (vs.reverse.filterMap id).head?

/-- Python truthiness of an optional float: `not x` is true when the
value is absent or equals zero. -/
def falsy (x : Option ℚ) : Bool :=
  match x with
  | none => true
  | some v => v == 0

/-- Result record of `calculate_growth_summary`. -/
structure GrowthSummary where
  total_growth : ℚ
  first_value : ℚ
  last_value : ℚ
  avg_annual_growth : Option ℚ
deriving DecidableEq

/-- Embeds `calculate_growth_summary`.  The `years[-1] - years[0]` read is
modelled with `getLastD`/`headD`; the source only reaches it past the
guard, and theorems that touch it assume a nonempty year list (Python
raises on an empty one). -/
def calculate_growth_summary (vs : List (Option ℚ)) (ys : List Int) :
    Option GrowthSummary :=
  let first_valid := firstValid vs
  let last_valid := lastValid vs
  if falsy first_valid || falsy last_valid || first_valid == some 0 then none
  else
    match first_valid, last_valid with
    | some f, some l =>
      let total_growth := ((l - f) / f) * 100
      let years_spanned := ys.getLastD 0 - ys.headD 0
      some { total_growth := total_growth
             first_value := f
             last_value := l
             avg_annual_growth :=
               if 0 < years_spanned then some (total_growth / (years_spanned : ℚ))
               else none }
    | _, _ => none

/-! ### Series statistics (`calculate_statistics`) -/

/-- Stable insertion keeping a descending-by-key order: the new element
goes in front of the first element whose key is not larger, so it lands
before every equal-keyed element already present. -/
def insertByDesc {α β : Type} [LinearOrder β] (key : α → β) (x : α) :
    List α → List α
  | [] => [x]
  | y :: ys => if key y ≤ key x then x :: y :: ys else y :: insertByDesc key x ys

/-- Stable descending insertion sort by a key (ties keep input order). -/
def sortByDesc {α β : Type} [LinearOrder β] (key : α → β) : List α → List α
  | [] => []
  | x :: xs => insertByDesc key x (sortByDesc key xs)

/-- Models `np.median`: middle element of the sorted data, or the average of
the two middle elements (callers guard against the empty list). -/
def medianQ (l : List ℚ) : ℚ :=
  let s := (sortByDesc id l).reverse
  let n := l.length
  if n % 2 = 1 then s.getD (n / 2) 0
  else (s.getD (n / 2 - 1) 0 + s.getD (n / 2) 0) / 2

/-- Result record of `calculate_statistics`; `std_sq` is the square of
the reported `np.std` (population variance). -/
structure Stats where
  max : ℚ
  min : ℚ
  mean : ℚ
  median : ℚ
  std_sq : ℚ
  count : ℕ
deriving DecidableEq

/-- Embeds `calculate_statistics`: filter out the missing cells, return `None`
on an empty remainder, else the aggregate record (`np.std` is population
standard deviation, ddof 0; its square is kept). -/
def calculate_statistics (vs : List (Option ℚ)) : Option Stats :=
  let valid := vs.filterMap id
  if valid = [] then none
  else
    let m := reduceSum valid / valid.length
    some { max := reduceMax valid
           min := reduceMin valid
           mean := m
           median := medianQ valid
           std_sq := ((valid.map (fun x => (x - (valid.sum / valid.length)) ^ 2)).sum) /
             valid.length
           count := valid.length }

/-! ### Top-N ranking (`get_top_countries`, pandas `nlargest`) -/

/-- Rows of the frame whose cell in the ranking year is present (the
`dropped` series of pandas `nlargest`). -/
def qualifying (df : List Row) (y : Int) : List Row :=
  df.filter (fun r => (r.val y).isSome)

/-- Rows of the frame whose cell in the ranking year is missing (the
`nan_index` block of pandas `nlargest`), in dataset order. -/
def missingRows (df : List Row) (y : Int) : List Row :=
  df.filter (fun r => !(r.val y).isSome)

/-- Sort key of a qualifying row: its (present) value in the year. -/
def keyVal (y : Int) (r : Row) : ℚ :=
  (r.val y).getD 0

/-- Embeds `get_top_countries`, i.e. `df.nlargest(n, year)` with the
default `keep` policy on pandas 1.4 and later (GH#43060, consistent
with `sort_values(year, ascending=False).head(n)`): the rows with a
present value, stable-sorted descending by that value, followed by the
missing-valued rows in dataset order, truncated to `n` — so when fewer
than `n` rows have a present value, missing-valued rows pad the result.
The `n < len(df)` fast path sorts with a stable mergesort and appends
`nan_index` exactly like this; the `n >= len(df)` slow path
(`sort_values(...).head(n)`) returns the same rows with the same value
order and NaN placement, but sorts with an unstable quicksort, so the
order among tied present values is unspecified there: this model picks
the stable order, and the tie-break theorem assumes `n < len(df)`. -/
def get_top_countries (df : List Row) (y : Int) (n : ℕ) : List Row :=
  (sortByDesc (keyVal y) (qualifying df y) ++ missingRows df y).take n

/-! ### Correlation matrix (`get_correlation_matrix`, pandas `corr`) -/

/-- Embeds `get_country_data`: `None` when no row matches the country
name, else the year cells of the matching rows flattened in row order
(`country_data[years].values.flatten()`). -/
def get_country_data (df : List Row) (c : String) (ys : List Int) :
    Option (List (Option ℚ)) :=
  if df.filter (fun r => r.name == c) = [] then none
  else some (((df.filter (fun r => r.name == c)).map
    (fun r => ys.map (fun y => r.val y))).flatten)

/-- One assignment `data_dict[country] = gdp_values`: a Python dict
keeps the first insertion position of a key and overwrites the value on
re-insertion. -/
def dictInsert (d : List (String × List (Option ℚ))) (c : String)
    (v : List (Option ℚ)) : List (String × List (Option ℚ)) :=
  if d.any (fun p => p.1 == c) then
    d.map (fun p => if p.1 == c then (c, v) else p)
  else d ++ [(c, v)]

/-- Builds the `data_dict` of `get_correlation_matrix`: one series per
requested country that has a matching row, in request order. -/
def buildDataDict (df : List Row) (cs : List String) (ys : List Int) :
    List (String × List (Option ℚ)) :=
  cs.foldl (fun d c =>
    match get_country_data df c ys with
    | none => d
    | some v => dictInsert d c v) []

/-- Embeds `get_correlation_matrix` up to the final `corr_df.corr()`
call: `None` when no requested country had data, else the column
dictionary the correlation matrix is computed from. -/
def get_correlation_matrix (df : List Row) (cs : List String) (ys : List Int) :
    Option (List (String × List (Option ℚ))) :=
  if buildDataDict df cs ys = [] then none else some (buildDataDict df cs ys)

/-- Pairwise-complete observations of two columns: the positions where
both series have a present value — the per-pair mask of pandas
`nancorr`, which never deletes a row because a third column is missing
there. -/
def sharedObs (x y : List (Option ℚ)) : List (ℚ × ℚ) :=
  (x.zip y).filterMap fun p =>
    match p with
    | (some a, some b) => some (a, b)
    | _ => none

/-- Mean of the first components of the shared observations. -/
def obsMeanFst (s : List (ℚ × ℚ)) : ℚ :=
  (s.map Prod.fst).sum / s.length

/-- Mean of the second components of the shared observations. -/
def obsMeanSnd (s : List (ℚ × ℚ)) : ℚ :=
  (s.map Prod.snd).sum / s.length

/-- Covariance sum of the shared observations about their means. -/
def obsCov (s : List (ℚ × ℚ)) : ℚ :=
  (s.map (fun p => (p.1 - obsMeanFst s) * (p.2 - obsMeanSnd s))).sum

/-- Variance sum of the first components about their mean. -/
def obsVarFst (s : List (ℚ × ℚ)) : ℚ :=
  (s.map (fun p => (p.1 - obsMeanFst s) ^ 2)).sum

/-- Variance sum of the second components about their mean. -/
def obsVarSnd (s : List (ℚ × ℚ)) : ℚ :=
  (s.map (fun p => (p.2 - obsMeanSnd s) ^ 2)).sum

/-- Rational core of a pandas `corr` cell over two columns: `none` is
the NaN cell (no shared observation, or a zero divisor, exactly the
`nancorr` guards with the default `min_periods = 1`); otherwise the
covariance sum paired with the product of the two variance sums, whose
square root divides it in the reported float. -/
def corrEntryQ (x y : List (Option ℚ)) : Option (ℚ × ℚ) :=
  if (sharedObs x y).length = 0 then none
  else if obsVarFst (sharedObs x y) * obsVarSnd (sharedObs x y) = 0 then none
  else some (obsCov (sharedObs x y),
    obsVarFst (sharedObs x y) * obsVarSnd (sharedObs x y))

/-- Interpretation of the rational core as the float pandas reports:
the covariance sum divided by the square root of the variance-sum
product. -/
noncomputable def corrVal (p : ℚ × ℚ) : ℝ :=
  (p.1 : ℝ) / Real.sqrt (p.2 : ℝ)

/-- A cell of `corr_df.corr()` over two columns. -/
noncomputable def corrEntry (x y : List (Option ℚ)) : Option ℝ :=
  (corrEntryQ x y).map corrVal

/-- Column `i` of the data dictionary. -/
def colSeries (d : List (String × List (Option ℚ))) (i : ℕ) : List (Option ℚ) :=
  (d.getD i ("", [])).2

/-- Cell `(i, j)` of the correlation matrix built on dictionary `d`. -/
noncomputable def matrixEntry (d : List (String × List (Option ℚ))) (i j : ℕ) :
    Option ℝ :=
  corrEntry (colSeries d i) (colSeries d j)

/-- Variance sum of a column over its present values (the diagonal's
divisor ingredient). -/
def presVar (x : List (Option ℚ)) : ℚ :=
  obsVarFst (sharedObs x x)

/-- Spec-side definition for the pairwise-correlation claim, following
the spec's words: the Pearson correlation computed over exactly the year
positions where both series have a present value — covariance of the
shared points divided by the product of the two standard deviations,
undefined when there is no shared point or either deviation vanishes. -/
noncomputable def pearsonPairwise (x y : List (Option ℚ)) : Option ℝ :=
  if (sharedObs x y).length = 0 then none
  else if obsVarFst (sharedObs x y) = 0 ∨ obsVarSnd (sharedObs x y) = 0 then none
  else some ((obsCov (sharedObs x y) : ℝ) /
    (Real.sqrt ((obsVarFst (sharedObs x y) : ℚ) : ℝ) *
      Real.sqrt ((obsVarSnd (sharedObs x y) : ℚ) : ℝ)))

/-! ### World statistics (`get_world_statistics`) -/

/-- A year's column across the whole frame (`self.df[year]`). -/
def yearColumn (df : List Row) (y : Int) : List (Option ℚ) :=
  df.map (fun r => r.val y)

/-- Result record of `get_world_statistics`; `std_sq_gdp` is the square
of the reported `year_data.std()`; `none` fields are the NaN aggregates
pandas yields on empty (or, for `std`, shorter-than-2) data. -/
structure WorldStats where
  total_gdp : ℚ
  avg_gdp : Option ℚ
  median_gdp : Option ℚ
  std_sq_gdp : Option ℚ
  max_gdp : Option ℚ
  min_gdp : Option ℚ
  country_count : ℕ
deriving DecidableEq

/-- The `year_data = self.df[year].dropna()` series: the year column
without its missing cells. -/
def world_year_data (df : List Row) (y : Int) : List ℚ :=
  (yearColumn df y).filterMap id

/-- Embeds `get_world_statistics`: drop the year column's missing cells,
then aggregate.  pandas `Series.std()` defaults to the SAMPLE standard
deviation (ddof = 1, NaN when fewer than two values), unlike the
`np.std` population deviation in `calculate_statistics`; its square is
kept. -/
def get_world_statistics (df : List Row) (y : Int) : WorldStats :=
  { total_gdp := (world_year_data df y).sum
    avg_gdp := if (world_year_data df y).length = 0 then none
      else some ((world_year_data df y).sum / (world_year_data df y).length)
    median_gdp := if (world_year_data df y).length = 0 then none
      else some (medianQ (world_year_data df y))
    std_sq_gdp := if (world_year_data df y).length < 2 then none else
      some ((((world_year_data df y).map
          (fun x => (x - (world_year_data df y).sum /
            (world_year_data df y).length) ^ 2)).sum) /
        (((world_year_data df y).length - 1 : ℕ) : ℚ))
    max_gdp := match world_year_data df y with
      | [] => none
      | _ :: _ => some (reduceMax (world_year_data df y))
    min_gdp := match world_year_data df y with
      | [] => none
      | _ :: _ => some (reduceMin (world_year_data df y))
    country_count := (world_year_data df y).length }

/-! ### Top correlations (`get_top_correlations`) -/

/-- Index pairs of the upper triangle in the source's enumeration
order: `for i in range(k): for j in range(i+1, k)` — row-major. -/
def cmIndexPairs (k : ℕ) : List (ℕ × ℕ) :=
  (List.range k).flatMap (fun i => ((List.range k).drop (i + 1)).map (fun j => (i, j)))

/-- The triple built for an index pair:
`(countries[i], countries[j], matrix.iloc[i, j])`. -/
def cmTriple (names : List String) (m : List (List ℚ)) (p : ℕ × ℕ) :
    String × String × ℚ :=
  (names.getD p.1 "", names.getD p.2 "", (m.getD p.1 []).getD p.2 0)

/-- Sort key of `get_top_correlations`: `abs(x[2])`, the absolute
coefficient of a triple. -/
def absKey (t : String × String × ℚ) : ℚ :=
  |t.2.2|

/-- The `correlations` list of `get_top_correlations`: all
upper-triangle triples in row-major order. -/
def upperTriangle (names : List String) (m : List (List ℚ)) :
    List (String × String × ℚ) :=
  (cmIndexPairs names.length).map (cmTriple names m)

/-- Embeds `get_top_correlations`: a stable descending sort of the
upper-triangle triples by absolute coefficient (`sorted` with
`reverse=True` keeps the original order of tied elements), truncated to
`n`.  Matrix cells are taken as given rationals: a matrix with NaN cells
has no well-defined Python sort order and is outside this model. -/
def get_top_correlations (names : List String) (m : List (List ℚ)) (n : ℕ) :
    List (String × String × ℚ) :=
  (sortByDesc absKey (upperTriangle names m)).take n

/-- Claim-side variant for the tie-break wording: the upper-triangle
pairs enumerated column-then-row (scan column by column, within a
column top to bottom), then the same stable descending sort by absolute
coefficient and truncation. -/
def cmIndexPairsColMajor (k : ℕ) : List (ℕ × ℕ) :=
  (List.range k).flatMap (fun j => (List.range j).map (fun i => (i, j)))

/-- Claim-side `top_correlations` with the claim's column-then-row tie
order. -/
def topCorrelationsColOrder (names : List String) (m : List (List ℚ)) (n : ℕ) :
    List (String × String × ℚ) :=
  (sortByDesc absKey
    ((cmIndexPairsColMajor names.length).map (cmTriple names m))).take n

/-! ### Module-level average helpers -/

/-- Embeds `filter_by_region` (this frame always has the `Continent`
column). -/
def filter_by_region (df : List Row) (region : String) : List Row :=
  df.filter (fun r => r.continent == region)

/-- Embeds `filter_by_country`. -/
def filter_by_country (df : List Row) (c : String) : List Row :=
  df.filter (fun r => r.name == c)

/-- Column sum over some rows (`rows[year].sum()`): pandas sums skip
missing cells. -/
def colSum (rows : List Row) (y : Int) : ℚ :=
  ((yearColumn rows y).filterMap id).sum

/-- Embeds `calculate_regional_average`: mean of the strictly positive
per-year regional totals, `0` when none remain. -/
def calculate_regional_average (df : List Row) (region : String)
    (ycols : List Int) : ℚ :=
  let region_data := filter_by_region df region
  let year_totals := ycols.map (fun y => colSum region_data y)
  let valid_totals := year_totals.filter (fun x => decide (0 < x))
  if valid_totals = [] then 0 else reduceSum valid_totals / valid_totals.length

/-- Embeds `calculate_country_average`: `0` when no row matches, else
the mean of the first matching row's strictly positive present cells
(`x > 0` is false for NaN in Python, so missing cells drop out), `0`
when none remain. -/
def calculate_country_average (df : List Row) (c : String)
    (ycols : List Int) : ℚ :=
  let country_data := filter_by_country df c
  if country_data = [] then 0
  else
    let gdp_values := ycols.map (fun y => (country_data.headD default).val y)
    let valid_values := (gdp_values.filterMap id).filter (fun x => decide (0 < x))
    if valid_values = [] then 0 else reduceSum valid_values / valid_values.length

/-- Claim-side helper: the mean of the strictly positive entries of a
list, `0` when there are none. -/
def meanOfPositives (l : List ℚ) : ℚ :=
  let pos := l.filter (fun x => decide (0 < x))
  if pos = [] then 0 else pos.sum / pos.length

/-- Claim-side helper on optional cells: a missing cell and a cell not
strictly greater than zero are excluded alike. -/
def meanOfPositivesOpt (l : List (Option ℚ)) : ℚ :=
  meanOfPositives (l.filterMap id)

/-! ### Theorems -/

theorem reduceSum_eq_sum (l : List ℚ) : reduceSum l = l.sum := by
  cases l with
  | nil => rfl
  | cons x xs =>
    simp only [reduceSum, List.sum_cons]
    induction xs generalizing x with
    | nil => simp
    | cons y ys ih =>
      simp only [List.foldl_cons, List.sum_cons, ih]
      ring

theorem firstValid_eq_none_iff (vs : List (Option ℚ)) :
    firstValid vs = none ↔ ∀ x ∈ vs, x = none := by
  simp [firstValid, List.head?_eq_none_iff, List.filterMap_eq_nil_iff, id]

theorem lastValid_eq_none_iff (vs : List (Option ℚ)) :
    lastValid vs = none ↔ ∀ x ∈ vs, x = none := by
  simp [lastValid, List.head?_eq_none_iff, List.filterMap_eq_nil_iff, id]

theorem length_filterMap_id (vs : List (Option ℚ)) :
    (vs.filterMap id).length = (vs.filter (fun x => x.isSome)).length := by
  induction vs with
  | nil => rfl
  | cons x xs ih => cases x <;> simp [ih]

/-- C1 (amended): `calculate_growth_summary` returns `NoData` exactly
when the input has no present value, or the first present value is `0`,
or the last present value is `0` — the source's Python truthiness guard
`not last_valid` also rejects a zero last value, which the claim misses;
whenever none of the three holds, a result record is returned. -/
theorem growth_summary_nodata_iff (vs : List (Option ℚ)) (ys : List Int)
    (_hys : ys ≠ []) :
    calculate_growth_summary vs ys = none ↔
      (∀ x ∈ vs, x = none) ∨ firstValid vs = some 0 ∨ lastValid vs = some 0 := by
  unfold calculate_growth_summary
  rcases hf : firstValid vs with _ | a
  · simp [falsy, hf]
    exact Or.inl ((firstValid_eq_none_iff vs).mp hf)
  · rcases hl : lastValid vs with _ | b
    · exact absurd (hf ▸ (firstValid_eq_none_iff vs).mpr
        ((lastValid_eq_none_iff vs).mp hl)) (by simp)
    · have hall : ¬ ∀ x ∈ vs, x = none := fun h =>
        by simpa [hf] using (firstValid_eq_none_iff vs).mpr h
      by_cases ha : a = 0
      · subst ha; simp [falsy, hall]
      · by_cases hb : b = 0
        · subst hb; simp [falsy, hall, ha]
        · simp [falsy, hall, ha, hb]

theorem growth_summary_nodata_iff_w :
    calculate_growth_summary [some 2, some 3] [2000, 2001] = none ↔
      (∀ x ∈ [some (2 : ℚ), some 3], x = none) ∨
        firstValid [some (2 : ℚ), some 3] = some 0 ∨
        lastValid [some (2 : ℚ), some 3] = some 0 :=
  growth_summary_nodata_iff [some 2, some 3] [2000, 2001] (by decide)

/-- C1 counterexample: on the series `[1, 0]` every entry is present and
the first present value is `1 ≠ 0`, yet the source returns `NoData`
(its guard also rejects a zero **last** value), so the claimed
if-and-only-if fails at this input. -/
theorem growth_summary_claim_cex :
    ¬ (calculate_growth_summary [some 1, some 0] [2000, 2001] = none ↔
        (∀ x ∈ [some (1 : ℚ), some 0], x = none) ∨
          firstValid [some (1 : ℚ), some 0] = some 0) := by
  decide

/-- C4: `calculate_statistics` returns `NoData` exactly when every
element of the input is missing; on any other input the returned
`count` is the number of non-missing entries, not the total length. -/
theorem statistics_nodata_iff_count (vs : List (Option ℚ)) :
    (calculate_statistics vs = none ↔ ∀ x ∈ vs, x = none) ∧
      ∀ s, calculate_statistics vs = some s →
        s.count = (vs.filter (fun x => x.isSome)).length := by
  constructor
  · unfold calculate_statistics
    rcases h : vs.filterMap id with _ | ⟨a, l⟩
    · simpa using (List.filterMap_eq_nil_iff).mp h
    · have : ¬ ∀ x ∈ vs, x = none := by
        intro hall
        have := (List.filterMap_eq_nil_iff (f := id)).mpr (by simpa using hall)
        simp [h] at this
      simp [this]
  · intro s hs
    unfold calculate_statistics at hs
    by_cases h : vs.filterMap id = []
    · simp [h] at hs
    · simp only [h, if_neg, ite_false] at hs
      have := congrArg Stats.count (Option.some_injective _ hs.symm)
      simpa [length_filterMap_id] using this

theorem extract_valid_fst (l : List (Option ℚ × Int)) :
    (l.filter (fun x => x.1.isSome)).filterMap (·.1) =
      (l.filterMap (fun x => Option.map (fun r => (r, x.2)) x.1)).map Prod.fst := by
  induction l with
  | nil => rfl
  | cons p l ih =>
    obtain ⟨o, y⟩ := p
    cases o <;> simp [List.filter_cons, List.filterMap_cons, ih]

theorem extract_valid_snd (l : List (Option ℚ × Int)) :
    (l.filter (fun x => x.1.isSome)).map (·.2) =
      (l.filterMap (fun x => Option.map (fun r => (r, x.2)) x.1)).map Prod.snd := by
  induction l with
  | nil => rfl
  | cons p l ih =>
    obtain ⟨o, y⟩ := p
    cases o <;> simp [List.filter_cons, List.filterMap_cons, ih]

theorem growth_data_eq_zip (vs : List (Option ℚ)) (ys : List Int)
    (h : vs.length = ys.length) :
    growth_data vs ys =
      ((vs.zip vs.tail).zip ys.tail).map (fun p => growthStep p.1 p.2) := by
  have hvp : (value_pairs vs).length = vs.length - 1 := by
    simp [value_pairs, List.length_zip]
  have hyt : ys.tail.length = vs.length - 1 := by simp [h]
  apply List.ext_getElem
  · simp [growth_data, hvp, List.length_zip, value_pairs, hyt]
  · intro i h1 h2
    have hi : i < (value_pairs vs).length := by
      simpa [growth_data] using h1
    have hiy : i < (year_pairs ys).length := by
      simp only [year_pairs, List.length_zip, List.length_tail]
      simp only [hvp] at hi
      omega
    have hit : i < ys.tail.length := by
      simp only [List.length_tail]
      simp only [year_pairs, List.length_zip, List.length_tail] at hiy
      omega
    have hizip : i < ((vs.zip vs.tail).zip ys.tail).length := by
      simpa [growth_data] using h2
    simp only [growth_data, List.getElem_map, List.getElem_range,
      List.getD_eq_getElem _ _ hi, List.getD_eq_getElem _ _ hiy]
    simp only [value_pairs, year_pairs, List.getElem_zip]

theorem growthStep_spec_fn (p : (Option ℚ × Option ℚ) × Int) :
    Option.map (fun r => (r, (growthStep p.1 p.2).2)) (growthStep p.1 p.2).1 =
      (match p.1 with
        | (some a, some b) => if a ≠ 0 then some ((((b - a) / a) * 100), p.2) else none
        | _ => none) := by
  obtain ⟨⟨a, b⟩, y⟩ := p
  cases a with
  | none => cases b <;> simp [growthStep]
  | some a =>
    cases b with
    | none => simp [growthStep]
    | some b =>
      by_cases ha : a = 0 <;> simp [growthStep, ha]

/-- C3: with equal-length inputs, `calculate_growth_rates` returns
exactly the rates and years of `growthPairsSpec`: for each adjacent pair
it emits the percentage rate tagged with the pair's second year iff both
values are present and the first is nonzero, drops failing pairs
entirely, preserves order, and produces at most `len(values) - 1`
entries. -/
theorem growth_rates_spec (vs : List (Option ℚ)) (ys : List Int)
    (h : vs.length = ys.length) :
    calculate_growth_rates vs ys =
      ((growthPairsSpec vs ys).map Prod.fst, (growthPairsSpec vs ys).map Prod.snd)
    ∧ (calculate_growth_rates vs ys).1.length ≤ vs.length - 1 := by
  have hgd := growth_data_eq_zip vs ys h
  have hm : (((vs.zip vs.tail).zip ys.tail).map
        (fun p => growthStep p.1 p.2)).filterMap
        (fun x => Option.map (fun r => (r, x.2)) x.1) = growthPairsSpec vs ys := by
    rw [List.filterMap_map]
    unfold growthPairsSpec
    congr 1
    funext p
    exact growthStep_spec_fn p
  have hfst : (calculate_growth_rates vs ys).1 = (growthPairsSpec vs ys).map Prod.fst := by
    show ((growth_data vs ys).filter (fun x => x.1.isSome)).filterMap (·.1) = _
    rw [extract_valid_fst, hgd, hm]
  have hsnd : (calculate_growth_rates vs ys).2 = (growthPairsSpec vs ys).map Prod.snd := by
    show ((growth_data vs ys).filter (fun x => x.1.isSome)).map (·.2) = _
    rw [extract_valid_snd, hgd, hm]
  refine ⟨Prod.ext hfst hsnd, ?_⟩
  rw [hfst]
  calc ((growthPairsSpec vs ys).map Prod.fst).length
      = (growthPairsSpec vs ys).length := List.length_map _ _
    _ ≤ ((vs.zip vs.tail).zip ys.tail).length := List.length_filterMap_le _ _
    _ ≤ (vs.zip vs.tail).length := by
        rw [List.length_zip]; exact min_le_left _ _
    _ ≤ vs.length - 1 := by
        rw [List.length_zip, List.length_tail]; exact min_le_right _ _

theorem growth_rates_spec_w :
    calculate_growth_rates [some 100, some 150, none, some 0, some 7]
        [2000, 2001, 2002, 2003, 2004] =
      ((growthPairsSpec [some 100, some 150, none, some 0, some 7]
          [2000, 2001, 2002, 2003, 2004]).map Prod.fst,
        (growthPairsSpec [some 100, some 150, none, some 0, some 7]
          [2000, 2001, 2002, 2003, 2004]).map Prod.snd)
    ∧ (calculate_growth_rates [some 100, some 150, none, some 0, some 7]
        [2000, 2001, 2002, 2003, 2004]).1.length ≤
        [some (100 : ℚ), some 150, none, some 0, some 7].length - 1 :=
  growth_rates_spec [some 100, some 150, none, some 0, some 7]
    [2000, 2001, 2002, 2003, 2004] (by decide)

/-! ### Stable-sort lemmas shared by the ranking and correlation claims -/

theorem insertByDesc_perm {α β : Type} [LinearOrder β] (key : α → β) (x : α)
    (l : List α) : (insertByDesc key x l).Perm (x :: l) := by
  induction l with
  | nil => exact List.Perm.refl _
  | cons y ys ih =>
    unfold insertByDesc
    by_cases h : key y ≤ key x
    · simp [h]
    · simp only [if_neg h]
      exact (ih.cons y).trans (List.Perm.swap x y ys)

theorem sortByDesc_perm {α β : Type} [LinearOrder β] (key : α → β)
    (l : List α) : (sortByDesc key l).Perm l := by
  induction l with
  | nil => exact List.Perm.refl _
  | cons x xs ih => exact (insertByDesc_perm key x _).trans (ih.cons x)

theorem insertByDesc_pairwise {α β : Type} [LinearOrder β] (key : α → β) (x : α)
    (l : List α) (h : l.Pairwise (fun a b => key b ≤ key a)) :
    (insertByDesc key x l).Pairwise (fun a b => key b ≤ key a) := by
  induction l with
  | nil => simp [insertByDesc]
  | cons y ys ih =>
    rw [List.pairwise_cons] at h
    unfold insertByDesc
    by_cases hxy : key y ≤ key x
    · simp only [if_pos hxy]
      refine List.Pairwise.cons ?_ (List.Pairwise.cons h.1 h.2)
      intro b hb
      rcases List.mem_cons.mp hb with rfl | hb
      · exact hxy
      · exact le_trans (h.1 b hb) hxy
    · simp only [if_neg hxy]
      refine List.Pairwise.cons ?_ (ih h.2)
      intro b hb
      rcases List.mem_cons.mp ((insertByDesc_perm key x ys).mem_iff.mp hb) with rfl | hb
      · exact le_of_lt (lt_of_not_le hxy)
      · exact h.1 b hb

theorem sortByDesc_pairwise {α β : Type} [LinearOrder β] (key : α → β)
    (l : List α) : (sortByDesc key l).Pairwise (fun a b => key b ≤ key a) := by
  induction l with
  | nil => simp [sortByDesc]
  | cons x xs ih => exact insertByDesc_pairwise key x _ ih

theorem filter_insertByDesc {α β : Type} [LinearOrder β] (key : α → β) (x : α)
    (l : List α) (k : β) :
    (insertByDesc key x l).filter (fun a => decide (key a = k)) =
      ((x :: l).filter (fun a => decide (key a = k))) := by
  induction l with
  | nil => rfl
  | cons y ys ih =>
    unfold insertByDesc
    by_cases hxy : key y ≤ key x
    · simp [hxy]
    · simp only [if_neg hxy]
      by_cases hx : key x = k
      · by_cases hy : key y = k
        · exact absurd (le_of_eq (hy.trans hx.symm)) hxy
        · simp [List.filter_cons, hx, hy, ih]
      · by_cases hy : key y = k
        · simp [List.filter_cons, hx, hy, ih]
        · simp [List.filter_cons, hx, hy, ih]

theorem filter_sortByDesc {α β : Type} [LinearOrder β] (key : α → β)
    (l : List α) (k : β) :
    (sortByDesc key l).filter (fun a => decide (key a = k)) =
      l.filter (fun a => decide (key a = k)) := by
  induction l with
  | nil => rfl
  | cons x xs ih =>
    unfold sortByDesc
    rw [filter_insertByDesc]
    by_cases hx : key x = k <;> simp [List.filter_cons, hx, ih]

theorem filter_take_exists {α : Type} (l : List α) (p : α → Bool) (n : ℕ) :
    ∃ t, l.filter p = (l.take n).filter p ++ t :=
  ⟨(l.drop n).filter p, by rw [← List.filter_append, List.take_append_drop]⟩

theorem length_qualifying_add_missing (df : List Row) (y : Int) :
    (qualifying df y).length + (missingRows df y).length = df.length := by
  unfold qualifying missingRows
  induction df with
  | nil => rfl
  | cons r rs ih =>
    rw [List.filter_cons, List.filter_cons]
    cases h : (r.val y).isSome
    · rw [if_neg (by simp [h]), if_pos (by simp [h])]
      simp only [List.length_cons]
      omega
    · rw [if_pos (by simp [h]), if_neg (by simp [h])]
      simp only [List.length_cons]
      omega

theorem top_countries_decomp (df : List Row) (y : Int) (n : ℕ) :
    get_top_countries df y n =
      (sortByDesc (keyVal y) (qualifying df y)).take n ++
        (missingRows df y).take (n - (qualifying df y).length) := by
  unfold get_top_countries
  rw [List.take_append_eq_append_take,
    (sortByDesc_perm (keyVal y) (qualifying df y)).length_eq]

/-- C5 (amended): `get_top_countries` returns `min n (len df)` rows:
first the rows with a present value in the ranking year, in
non-increasing order of that value, then — padding the result up to
`n` — the rows whose value is missing, in dataset order (pandas ≥ 1.4
`nlargest` sorts missing rows to the bottom instead of excluding them);
when fewer than `n` rows have a present value all of them are returned,
without error; and on the `n < len df` fast path ties among present
values keep the original dataset order (the rows carrying any fixed
value form a prefix of the qualifying rows carrying that value). -/
theorem top_countries_spec (df : List Row) (y : Int) (n : ℕ) :
    (get_top_countries df y n).length = min n df.length
    ∧ (∀ r ∈ (get_top_countries df y n).take (min n (qualifying df y).length),
        (r.val y).isSome = true)
    ∧ (∀ r ∈ (get_top_countries df y n).drop (min n (qualifying df y).length),
        r.val y = none)
    ∧ ((get_top_countries df y n).take (min n (qualifying df y).length)).Pairwise
        (fun a b => keyVal y b ≤ keyVal y a)
    ∧ (get_top_countries df y n).drop (min n (qualifying df y).length) =
        (missingRows df y).take (n - (qualifying df y).length)
    ∧ ((qualifying df y).length ≤ n →
        ((get_top_countries df y n).filter (fun r => (r.val y).isSome)).Perm
          (qualifying df y))
    ∧ (n < df.length → ∀ k : ℚ, ∃ t,
        (qualifying df y).filter (fun r => r.val y == some k) =
          (get_top_countries df y n).filter (fun r => r.val y == some k) ++ t) := by
  have hq := sortByDesc_perm (keyVal y) (qualifying df y)
  have hslen : (sortByDesc (keyVal y) (qualifying df y)).length =
      (qualifying df y).length := hq.length_eq
  have hdecomp := top_countries_decomp df y n
  have htakelen : ((sortByDesc (keyVal y) (qualifying df y)).take n).length =
      min n (qualifying df y).length := by
    simp [List.length_take, hslen]
  have htake : (get_top_countries df y n).take (min n (qualifying df y).length) =
      (sortByDesc (keyVal y) (qualifying df y)).take n := by
    rw [hdecomp, ← htakelen, List.take_left]
  have hdrop : (get_top_countries df y n).drop (min n (qualifying df y).length) =
      (missingRows df y).take (n - (qualifying df y).length) := by
    rw [hdecomp, ← htakelen, List.drop_left]
  have hsomeq : ∀ r ∈ qualifying df y, (r.val y).isSome = true :=
    fun r hr => (List.mem_filter.mp hr).2
  have hmemtake : ∀ r ∈ (sortByDesc (keyVal y) (qualifying df y)).take n,
      r ∈ qualifying df y :=
    fun r hr => hq.mem_iff.mp (List.take_subset n _ hr)
  have hnonemiss : ∀ r ∈ missingRows df y, r.val y = none := by
    intro r hr
    have h2 := (List.mem_filter.mp hr).2
    cases hv : r.val y
    · rfl
    · rw [hv] at h2
      simp at h2
  refine ⟨?_, ?_, ?_, ?_, hdrop, ?_, ?_⟩
  · unfold get_top_countries
    rw [List.length_take, List.length_append, hslen,
      length_qualifying_add_missing]
  · intro r hr
    rw [htake] at hr
    exact hsomeq r (hmemtake r hr)
  · intro r hr
    rw [hdrop] at hr
    exact hnonemiss r (List.take_subset _ _ hr)
  · rw [htake]
    exact (sortByDesc_pairwise (keyVal y) (qualifying df y)).sublist
      (List.take_sublist n _)
  · intro hlen
    have h1 : (sortByDesc (keyVal y) (qualifying df y)).take n =
        sortByDesc (keyVal y) (qualifying df y) :=
      List.take_of_length_le (by rw [hslen]; exact hlen)
    have h2 : (sortByDesc (keyVal y) (qualifying df y)).filter
        (fun r => (r.val y).isSome) = sortByDesc (keyVal y) (qualifying df y) :=
      List.filter_eq_self.mpr (fun r hr => hsomeq r (hq.mem_iff.mp hr))
    have h3 : ((missingRows df y).take (n - (qualifying df y).length)).filter
        (fun r => (r.val y).isSome) = [] := by
      apply List.filter_eq_nil_iff.mpr
      intro r hr
      simp [hnonemiss r (List.take_subset _ _ hr)]
    rw [hdecomp, List.filter_append, h1, h2, h3, List.append_nil]
    exact hq
  · intro _ k
    have hbeq : ∀ (r : Row), (r.val y).isSome = true →
        (r.val y == some k) = decide (keyVal y r = k) := by
      intro r hr
      rcases hv : r.val y with _ | v
      · simp [hv] at hr
      · by_cases h : v = k <;> simp [keyVal, hv, h]
    have h1 : (qualifying df y).filter (fun r => r.val y == some k) =
        (qualifying df y).filter (fun r => decide (keyVal y r = k)) :=
      List.filter_congr (fun r hr => hbeq r (hsomeq r hr))
    have hmiss : ((missingRows df y).take (n - (qualifying df y).length)).filter
        (fun r => r.val y == some k) = [] := by
      apply List.filter_eq_nil_iff.mpr
      intro r hr
      simp [hnonemiss r (List.take_subset _ _ hr)]
    have h2 : (get_top_countries df y n).filter (fun r => r.val y == some k) =
        ((sortByDesc (keyVal y) (qualifying df y)).take n).filter
          (fun r => decide (keyVal y r = k)) := by
      rw [hdecomp, List.filter_append, hmiss, List.append_nil]
      exact List.filter_congr (fun r hr => hbeq r (hsomeq r (hmemtake r hr)))
    rcases filter_take_exists (sortByDesc (keyVal y) (qualifying df y))
      (fun r => decide (keyVal y r = k)) n with ⟨t, ht⟩
    refine ⟨t, ?_⟩
    rw [h1, h2, ← filter_sortByDesc (keyVal y) (qualifying df y) k]
    exact ht

theorem top_countries_spec_w :
    (get_top_countries
        [⟨"A", "X", [(2000, some 100)]⟩, ⟨"B", "X", [(2000, some 100)]⟩,
          ⟨"C", "X", [(2000, none)]⟩] 2000 1).length =
      min 1 ([⟨"A", "X", [(2000, some 100)]⟩, ⟨"B", "X", [(2000, some 100)]⟩,
        (⟨"C", "X", [(2000, none)]⟩ : Row)] : List Row).length
    ∧ (∀ r ∈ (get_top_countries
        [⟨"A", "X", [(2000, some 100)]⟩, ⟨"B", "X", [(2000, some 100)]⟩,
          ⟨"C", "X", [(2000, none)]⟩] 2000 1).take
        (min 1 (qualifying
          [⟨"A", "X", [(2000, some 100)]⟩, ⟨"B", "X", [(2000, some 100)]⟩,
            ⟨"C", "X", [(2000, none)]⟩] 2000).length),
        (r.val 2000).isSome = true)
    ∧ (∀ r ∈ (get_top_countries
        [⟨"A", "X", [(2000, some 100)]⟩, ⟨"B", "X", [(2000, some 100)]⟩,
          ⟨"C", "X", [(2000, none)]⟩] 2000 1).drop
        (min 1 (qualifying
          [⟨"A", "X", [(2000, some 100)]⟩, ⟨"B", "X", [(2000, some 100)]⟩,
            ⟨"C", "X", [(2000, none)]⟩] 2000).length),
        r.val 2000 = none)
    ∧ ((get_top_countries
        [⟨"A", "X", [(2000, some 100)]⟩, ⟨"B", "X", [(2000, some 100)]⟩,
          ⟨"C", "X", [(2000, none)]⟩] 2000 1).take
        (min 1 (qualifying
          [⟨"A", "X", [(2000, some 100)]⟩, ⟨"B", "X", [(2000, some 100)]⟩,
            ⟨"C", "X", [(2000, none)]⟩] 2000).length)).Pairwise
        (fun a b => keyVal 2000 b ≤ keyVal 2000 a)
    ∧ (get_top_countries
        [⟨"A", "X", [(2000, some 100)]⟩, ⟨"B", "X", [(2000, some 100)]⟩,
          ⟨"C", "X", [(2000, none)]⟩] 2000 1).drop
        (min 1 (qualifying
          [⟨"A", "X", [(2000, some 100)]⟩, ⟨"B", "X", [(2000, some 100)]⟩,
            ⟨"C", "X", [(2000, none)]⟩] 2000).length) =
        (missingRows
          [⟨"A", "X", [(2000, some 100)]⟩, ⟨"B", "X", [(2000, some 100)]⟩,
            ⟨"C", "X", [(2000, none)]⟩] 2000).take
          (1 - (qualifying
            [⟨"A", "X", [(2000, some 100)]⟩, ⟨"B", "X", [(2000, some 100)]⟩,
              ⟨"C", "X", [(2000, none)]⟩] 2000).length)
    ∧ ((qualifying
        [⟨"A", "X", [(2000, some 100)]⟩, ⟨"B", "X", [(2000, some 100)]⟩,
          ⟨"C", "X", [(2000, none)]⟩] 2000).length ≤ 1 →
        ((get_top_countries
          [⟨"A", "X", [(2000, some 100)]⟩, ⟨"B", "X", [(2000, some 100)]⟩,
            ⟨"C", "X", [(2000, none)]⟩] 2000 1).filter
          (fun r => (r.val 2000).isSome)).Perm
          (qualifying
            [⟨"A", "X", [(2000, some 100)]⟩, ⟨"B", "X", [(2000, some 100)]⟩,
              ⟨"C", "X", [(2000, none)]⟩] 2000))
    ∧ (1 < ([⟨"A", "X", [(2000, some 100)]⟩, ⟨"B", "X", [(2000, some 100)]⟩,
        (⟨"C", "X", [(2000, none)]⟩ : Row)] : List Row).length →
        ∀ k : ℚ, ∃ t, (qualifying
          [⟨"A", "X", [(2000, some 100)]⟩, ⟨"B", "X", [(2000, some 100)]⟩,
            ⟨"C", "X", [(2000, none)]⟩] 2000).filter
            (fun r => r.val 2000 == some k) =
          (get_top_countries
            [⟨"A", "X", [(2000, some 100)]⟩, ⟨"B", "X", [(2000, some 100)]⟩,
              ⟨"C", "X", [(2000, none)]⟩] 2000 1).filter
            (fun r => r.val 2000 == some k) ++ t) :=
  top_countries_spec
    [⟨"A", "X", [(2000, some 100)]⟩, ⟨"B", "X", [(2000, some 100)]⟩,
      ⟨"C", "X", [(2000, none)]⟩] 2000 1

/-- C5 counterexample: with one present value and two missing ones,
`nlargest(2, year)` on pandas ≥ 1.4 pads the result with a
missing-valued row (GH#43060, consistent with
`sort_values(...).head(n)`): the second returned row's value is
missing, so missing-valued rows are sorted to the bottom, not
"excluded entirely", and the output is longer than the set of rows
with a present value. -/
theorem top_countries_claim_cex :
    get_top_countries
        [⟨"A", "X", [(2000, some 100)]⟩, ⟨"B", "X", [(2000, none)]⟩,
          ⟨"C", "X", [(2000, none)]⟩] 2000 2 =
      [⟨"A", "X", [(2000, some 100)]⟩, ⟨"B", "X", [(2000, none)]⟩]
    ∧ (⟨"B", "X", [(2000, none)]⟩ : Row) ∈
        get_top_countries
          [⟨"A", "X", [(2000, some 100)]⟩, ⟨"B", "X", [(2000, none)]⟩,
            ⟨"C", "X", [(2000, none)]⟩] 2000 2
    ∧ (⟨"B", "X", [(2000, none)]⟩ : Row).val 2000 = none
    ∧ (qualifying
        [⟨"A", "X", [(2000, some 100)]⟩, ⟨"B", "X", [(2000, none)]⟩,
          ⟨"C", "X", [(2000, none)]⟩] 2000).length <
        (get_top_countries
          [⟨"A", "X", [(2000, some 100)]⟩, ⟨"B", "X", [(2000, none)]⟩,
            ⟨"C", "X", [(2000, none)]⟩] 2000 2).length := by
  refine ⟨by decide, by decide, by decide, by decide⟩

/-! ### Correlation-matrix lemmas and claims -/

theorem obsVarFst_nonneg (s : List (ℚ × ℚ)) : 0 ≤ obsVarFst s := by
  apply List.sum_nonneg
  intro q hq
  obtain ⟨p, _, rfl⟩ := List.mem_map.mp hq
  exact sq_nonneg _

theorem obsVarSnd_nonneg (s : List (ℚ × ℚ)) : 0 ≤ obsVarSnd s := by
  apply List.sum_nonneg
  intro q hq
  obtain ⟨p, _, rfl⟩ := List.mem_map.mp hq
  exact sq_nonneg _

theorem corr_entry_eq_pearson (x y : List (Option ℚ)) :
    corrEntry x y = pearsonPairwise x y := by
  unfold corrEntry corrEntryQ pearsonPairwise
  by_cases h0 : (sharedObs x y).length = 0
  · simp [h0]
  · rw [if_neg h0, if_neg h0]
    by_cases hz : obsVarFst (sharedObs x y) * obsVarSnd (sharedObs x y) = 0
    · rw [if_pos hz, if_pos (mul_eq_zero.mp hz)]
      rfl
    · rw [if_neg hz, if_neg (fun h => hz (by rcases h with h | h <;> rw [h] <;> ring))]
      show some (corrVal _) = _
      congr 1
      unfold corrVal
      rw [Rat.cast_mul, Real.sqrt_mul (by exact_mod_cast obsVarFst_nonneg _)]

theorem sharedObs_swap (x y : List (Option ℚ)) :
    sharedObs y x = (sharedObs x y).map Prod.swap := by
  induction x generalizing y with
  | nil => cases y <;> rfl
  | cons a x' ih =>
    cases y with
    | nil => rfl
    | cons b y' =>
      have ih' := ih y'
      simp only [sharedObs] at ih' ⊢
      rw [List.zip_cons_cons, List.zip_cons_cons, List.filterMap_cons,
        List.filterMap_cons]
      cases a <;> cases b <;> simp [ih']

theorem obsMeanFst_swap (s : List (ℚ × ℚ)) :
    obsMeanFst (s.map Prod.swap) = obsMeanSnd s := by
  simp [obsMeanFst, obsMeanSnd, List.map_map, Function.comp_def]

theorem obsMeanSnd_swap (s : List (ℚ × ℚ)) :
    obsMeanSnd (s.map Prod.swap) = obsMeanFst s := by
  simp [obsMeanFst, obsMeanSnd, List.map_map, Function.comp_def]

theorem obsCov_swap (s : List (ℚ × ℚ)) :
    obsCov (s.map Prod.swap) = obsCov s := by
  unfold obsCov
  rw [obsMeanFst_swap, obsMeanSnd_swap, List.map_map]
  congr 1
  apply List.map_congr_left
  intro p _
  simp only [Function.comp_def, Prod.fst_swap, Prod.snd_swap]
  ring

theorem obsVarFst_swap (s : List (ℚ × ℚ)) :
    obsVarFst (s.map Prod.swap) = obsVarSnd s := by
  unfold obsVarFst obsVarSnd
  rw [obsMeanFst_swap, List.map_map]
  congr 1

theorem obsVarSnd_swap (s : List (ℚ × ℚ)) :
    obsVarSnd (s.map Prod.swap) = obsVarFst s := by
  unfold obsVarFst obsVarSnd
  rw [obsMeanSnd_swap, List.map_map]
  congr 1

theorem corrEntryQ_symm (x y : List (Option ℚ)) :
    corrEntryQ x y = corrEntryQ y x := by
  unfold corrEntryQ
  rw [sharedObs_swap x y, List.length_map, obsCov_swap, obsVarFst_swap,
    obsVarSnd_swap, mul_comm (obsVarSnd (sharedObs x y)) (obsVarFst (sharedObs x y))]

theorem sharedObs_self (x : List (Option ℚ)) :
    sharedObs x x = (x.filterMap id).map (fun a => (a, a)) := by
  induction x with
  | nil => rfl
  | cons a x' ih =>
    have ih' := ih
    simp only [sharedObs] at ih' ⊢
    rw [List.zip_cons_cons, List.filterMap_cons]
    cases a <;> simp [ih']

theorem diag_parts (x : List (Option ℚ)) :
    obsMeanSnd (sharedObs x x) = obsMeanFst (sharedObs x x)
    ∧ obsCov (sharedObs x x) = obsVarFst (sharedObs x x)
    ∧ obsVarSnd (sharedObs x x) = obsVarFst (sharedObs x x) := by
  rw [sharedObs_self]
  have hmean : obsMeanSnd ((x.filterMap id).map (fun a => (a, a))) =
      obsMeanFst ((x.filterMap id).map (fun a => (a, a))) := by
    unfold obsMeanFst obsMeanSnd
    rw [List.map_map, List.map_map]
    simp [Function.comp_def]
  refine ⟨hmean, ?_, ?_⟩
  · unfold obsCov obsVarFst
    rw [hmean, List.map_map, List.map_map]
    congr 1
    apply List.map_congr_left
    intro a _
    simp only [Function.comp_def]
    ring
  · unfold obsVarFst obsVarSnd
    rw [hmean, List.map_map, List.map_map]
    congr 1

theorem corr_diag (x : List (Option ℚ)) (hv : presVar x ≠ 0) :
    corrEntry x x = some 1 := by
  obtain ⟨hm, hcov, hvar⟩ := diag_parts x
  have hnn : 0 ≤ presVar x := obsVarFst_nonneg _
  have hlen : ¬ (sharedObs x x).length = 0 := by
    intro h0
    apply hv
    have h : sharedObs x x = [] := List.length_eq_zero.mp h0
    simp [presVar, h, obsVarFst]
  have hprod : obsVarFst (sharedObs x x) * obsVarSnd (sharedObs x x) =
      presVar x * presVar x := by
    rw [hvar]; rfl
  unfold corrEntry corrEntryQ
  rw [if_neg hlen, hprod, if_neg (mul_ne_zero hv hv), hcov]
  show some (corrVal (presVar x, presVar x * presVar x)) = some 1
  congr 1
  unfold corrVal
  rw [Rat.cast_mul, Real.sqrt_mul_self (by exact_mod_cast hnn)]
  exact div_self (by exact_mod_cast hv)

/-- C2: in any returned correlation matrix, the cell of two distinct
included countries is the Pearson correlation computed over exactly the
year positions where both series have a present value
(pairwise-complete observations, `pearsonPairwise`), not a correlation
over rows kept by whole-row deletion. -/
theorem correlation_matrix_pairwise (df : List Row) (cs : List String)
    (ys : List Int) (d : List (String × List (Option ℚ)))
    (_hd : get_correlation_matrix df cs ys = some d) (i j : ℕ)
    (_hi : i < d.length) (_hj : j < d.length) (_hij : i ≠ j) :
    matrixEntry d i j = pearsonPairwise (colSeries d i) (colSeries d j) :=
  corr_entry_eq_pearson _ _

theorem correlation_matrix_pairwise_w :
    matrixEntry [("A", [some 1, some 2]), ("B", [some 2, some 1])] 0 1 =
      pearsonPairwise
        (colSeries [("A", [some 1, some 2]), ("B", [some 2, some 1])] 0)
        (colSeries [("A", [some 1, some 2]), ("B", [some 2, some 1])] 1) :=
  correlation_matrix_pairwise
    [⟨"A", "X", [(2000, some 1), (2001, some 2)]⟩,
      ⟨"B", "X", [(2000, some 2), (2001, some 1)]⟩]
    ["A", "B"] [2000, 2001]
    [("A", [some 1, some 2]), ("B", [some 2, some 1])]
    (by decide) 0 1 (by decide) (by decide) (by decide)

/-- C6 (amended): every returned correlation matrix is symmetric, and
the diagonal cell of an included country is exactly `1.0` whenever the
country's present values have a nonzero variance sum; when the variance
sum is zero (no present value, a single one, or an all-equal series)
pandas reports NaN on the diagonal instead — the counterexample
exhibits this. -/
theorem correlation_matrix_symm_diag (df : List Row) (cs : List String)
    (ys : List Int) (d : List (String × List (Option ℚ)))
    (_hd : get_correlation_matrix df cs ys = some d) (i j : ℕ)
    (_hi : i < d.length) (_hj : j < d.length) :
    matrixEntry d i j = matrixEntry d j i
    ∧ (presVar (colSeries d i) ≠ 0 → matrixEntry d i i = some 1) := by
  constructor
  · unfold matrixEntry corrEntry
    rw [corrEntryQ_symm]
  · intro hv
    exact corr_diag _ hv

theorem correlation_matrix_symm_diag_w :
    matrixEntry [("A", [some 1, some 2]), ("B", [some 2, some 1])] 0 1 =
      matrixEntry [("A", [some 1, some 2]), ("B", [some 2, some 1])] 1 0
    ∧ (presVar (colSeries [("A", [some 1, some 2]), ("B", [some 2, some 1])] 0) ≠ 0 →
        matrixEntry [("A", [some 1, some 2]), ("B", [some 2, some 1])] 0 0 = some 1) :=
  correlation_matrix_symm_diag
    [⟨"A", "X", [(2000, some 1), (2001, some 2)]⟩,
      ⟨"B", "X", [(2000, some 2), (2001, some 1)]⟩]
    ["A", "B"] [2000, 2001]
    [("A", [some 1, some 2]), ("B", [some 2, some 1])]
    (by decide) 0 1 (by decide) (by decide)

/-- C6 counterexample: a country whose series is constant over the
selected years is included in the matrix, but its diagonal cell is the
`0/0` NaN of pandas `corr` (zero variance divisor), not `1.0`. -/
theorem corr_diag_claim_cex :
    get_correlation_matrix [⟨"A", "X", [(2000, some 1), (2001, some 1)]⟩]
        ["A"] [2000, 2001] = some [("A", [some 1, some 1])]
    ∧ matrixEntry [("A", [some 1, some 1])] 0 0 ≠ some (1 : ℝ) := by
  constructor
  · decide
  · have hs : sharedObs (colSeries [("A", [some 1, some 1])] 0)
        (colSeries [("A", [some 1, some 1])] 0) = [(1, 1), (1, 1)] := by rfl
    have h : corrEntryQ (colSeries [("A", [some 1, some 1])] 0)
        (colSeries [("A", [some 1, some 1])] 0) = none := by
      unfold corrEntryQ
      rw [hs]
      norm_num [obsVarFst, obsVarSnd, obsMeanFst, obsMeanSnd]
    simp [matrixEntry, corrEntry, h]

theorem get_country_data_none_iff (df : List Row) (c : String) (ys : List Int) :
    get_country_data df c ys = none ↔ ∀ r ∈ df, r.name ≠ c := by
  unfold get_country_data
  by_cases h : df.filter (fun r => r.name == c) = []
  · rw [if_pos h]
    exact iff_of_true rfl (fun r hr => by
      simpa using List.filter_eq_nil_iff.mp h r hr)
  · rw [if_neg h]
    constructor
    · intro hc
      exact absurd hc (by simp)
    · intro hall
      exact absurd (List.filter_eq_nil_iff.mpr
        (fun r hr => by simpa using hall r hr)) h

theorem keys_dictInsert (d : List (String × List (Option ℚ))) (c : String)
    (v : List (Option ℚ)) (k : String) :
    k ∈ (dictInsert d c v).map Prod.fst ↔ (k ∈ d.map Prod.fst ∨ k = c) := by
  unfold dictInsert
  by_cases h : d.any (fun p => p.1 == c) = true
  · simp only [h, if_pos]
    have hkeys : (d.map (fun p => if p.1 == c then (c, v) else p)).map Prod.fst =
        d.map Prod.fst := by
      rw [List.map_map]
      apply List.map_congr_left
      intro p _
      by_cases hp : p.1 = c
      · simp [hp]
      · simp [hp]
    rw [hkeys]
    constructor
    · exact Or.inl
    · rintro (hk | rfl)
      · exact hk
      · obtain ⟨p, hp, hpc⟩ := List.any_eq_true.mp h
        exact List.mem_map.mpr ⟨p, hp, by simpa using hpc⟩
  · simp [h, List.map_append]

theorem mem_keys_build (df : List Row) (ys : List Int) (cs : List String)
    (d₀ : List (String × List (Option ℚ))) (k : String) :
    k ∈ ((cs.foldl (fun d c =>
        match get_country_data df c ys with
        | none => d
        | some v => dictInsert d c v) d₀).map Prod.fst) ↔
      (k ∈ d₀.map Prod.fst ∨ (k ∈ cs ∧ get_country_data df k ys ≠ none)) := by
  induction cs generalizing d₀ with
  | nil => simp
  | cons c' cs' ih =>
    simp only [List.foldl_cons]
    rw [ih]
    cases hg : get_country_data df c' ys with
    | none =>
      constructor
      · rintro (hk | hk)
        · exact Or.inl hk
        · exact Or.inr ⟨List.mem_cons_of_mem _ hk.1, hk.2⟩
      · rintro (hk | ⟨hmem, hne⟩)
        · exact Or.inl hk
        · rcases List.mem_cons.mp hmem with rfl | hmem'
          · exact absurd hg hne
          · exact Or.inr ⟨hmem', hne⟩
    | some v =>
      rw [keys_dictInsert]
      constructor
      · rintro ((hk | rfl) | hk)
        · exact Or.inl hk
        · exact Or.inr ⟨List.mem_cons_self _ _, by simp [hg]⟩
        · exact Or.inr ⟨List.mem_cons_of_mem _ hk.1, hk.2⟩
      · rintro (hk | ⟨hmem, hne⟩)
        · exact Or.inl (Or.inl hk)
        · rcases List.mem_cons.mp hmem with rfl | hmem'
          · exact Or.inl (Or.inr rfl)
          · exact Or.inr ⟨hmem', hne⟩

/-- C8: `get_correlation_matrix` silently drops each requested country
with no matching dataset row (nothing is raised — the embedding is a
total function): it returns `NoData` exactly when no requested country
matches a row, and in a returned matrix the columns are exactly the
requested countries that match a row. -/
theorem correlation_matrix_nodata_iff (df : List Row) (cs : List String)
    (ys : List Int) :
    (get_correlation_matrix df cs ys = none ↔
      ∀ c ∈ cs, ∀ r ∈ df, r.name ≠ c)
    ∧ ∀ d, get_correlation_matrix df cs ys = some d →
        ∀ k, (k ∈ d.map Prod.fst ↔ (k ∈ cs ∧ ∃ r ∈ df, r.name = k)) := by
  have hkeys : ∀ k, k ∈ (buildDataDict df cs ys).map Prod.fst ↔
      (k ∈ cs ∧ get_country_data df k ys ≠ none) := by
    intro k
    simpa [buildDataDict] using mem_keys_build df ys cs [] k
  have hne : ∀ k, (get_country_data df k ys ≠ none) ↔ ∃ r ∈ df, r.name = k := by
    intro k
    rw [Ne, get_country_data_none_iff]
    push_neg
    rfl
  have h1 : get_correlation_matrix df cs ys = none ↔ buildDataDict df cs ys = [] := by
    unfold get_correlation_matrix
    by_cases hb : buildDataDict df cs ys = [] <;> simp [hb]
  constructor
  · rw [h1]
    constructor
    · intro hb c hc r hr hrc
      have : c ∈ (buildDataDict df cs ys).map Prod.fst :=
        (hkeys c).mpr ⟨hc, (hne c).mpr ⟨r, hr, hrc⟩⟩
      simp [hb] at this
    · intro hall
      by_contra hb
      obtain ⟨p, hp⟩ := List.exists_mem_of_ne_nil _ hb
      have hk : p.1 ∈ (buildDataDict df cs ys).map Prod.fst :=
        List.mem_map.mpr ⟨p, hp, rfl⟩
      obtain ⟨hcs, hhas⟩ := (hkeys p.1).mp hk
      obtain ⟨r, hr, hrn⟩ := (hne p.1).mp hhas
      exact hall p.1 hcs r hr hrn
  · intro d hd k
    have hdd : d = buildDataDict df cs ys := by
      unfold get_correlation_matrix at hd
      by_cases hb : buildDataDict df cs ys = []
      · simp [hb] at hd
      · simp only [hb, if_neg, ite_false, Option.some_inj] at hd
        exact hd.symm
    rw [hdd, hkeys k, hne k]

theorem correlation_matrix_nodata_iff_w :
    (get_correlation_matrix [⟨"A", "X", [(2000, some 1)]⟩] ["A", "Z"] [2000] = none ↔
      ∀ c ∈ ["A", "Z"], ∀ r ∈ [(⟨"A", "X", [(2000, some 1)]⟩ : Row)], r.name ≠ c)
    ∧ ∀ d, get_correlation_matrix [⟨"A", "X", [(2000, some 1)]⟩] ["A", "Z"] [2000] =
        some d →
        ∀ k, (k ∈ d.map Prod.fst ↔
          (k ∈ ["A", "Z"] ∧ ∃ r ∈ [(⟨"A", "X", [(2000, some 1)]⟩ : Row)], r.name = k)) :=
  correlation_matrix_nodata_iff [⟨"A", "X", [(2000, some 1)]⟩] ["A", "Z"] [2000]

theorem statistics_nodata_iff_count_w :
    (calculate_statistics [some 100, none] = none ↔
        ∀ x ∈ [some (100 : ℚ), none], x = none) ∧
      ∀ s, calculate_statistics [some 100, none] = some s →
        s.count = ([some (100 : ℚ), none].filter (fun x => x.isSome)).length :=
  statistics_nodata_iff_count [some 100, none]

/-! ### Top-correlations claims -/

theorem mem_cmIndexPairs (k : ℕ) (p : ℕ × ℕ) (hp : p ∈ cmIndexPairs k) :
    p.1 < p.2 ∧ p.2 < k := by
  unfold cmIndexPairs at hp
  obtain ⟨i, _, hp2⟩ := List.mem_flatMap.mp hp
  obtain ⟨j, hj, rfl⟩ := List.mem_map.mp hp2
  refine ⟨?_, List.mem_range.mp (List.mem_of_mem_drop hj)⟩
  obtain ⟨a, ha, haj⟩ := List.getElem_of_mem hj
  rw [List.getElem_drop, List.getElem_range] at haj
  simp only
  omega

theorem cmIndexPairs_nodup (k : ℕ) : (cmIndexPairs k).Nodup := by
  unfold cmIndexPairs
  rw [List.nodup_flatMap]
  constructor
  · intro i _
    exact List.Nodup.map (fun j1 j2 h => (Prod.ext_iff.mp h).2)
      ((List.nodup_range k).sublist (List.drop_sublist _ _))
  · apply List.Pairwise.imp ?_ (List.nodup_range k)
    intro a b hab p hpa hpb
    obtain ⟨j, _, rfl⟩ := List.mem_map.mp hpa
    obtain ⟨j2, _, hj2⟩ := List.mem_map.mp hpb
    exact hab (congrArg Prod.fst hj2.symm)

/-- C9 (amended): `get_top_correlations` returns at most `n` triples,
each an upper-triangle entry (the index enumeration lists each unordered
pair of distinct indices exactly once), in non-increasing order of
absolute coefficient; when at most `n` pairs exist all are returned; and
tied absolute coefficients keep the source's ROW-then-column (row-major)
upper-triangle encounter order, not the claimed column-then-row order —
the triples carrying any fixed absolute value form a prefix of that
row-major enumeration filtered to the value. -/
theorem top_correlations_spec (names : List String) (m : List (List ℚ)) (n : ℕ) :
    (get_top_correlations names m n).length ≤ n
    ∧ (get_top_correlations names m n).Pairwise (fun a b => absKey b ≤ absKey a)
    ∧ (∀ t ∈ get_top_correlations names m n, t ∈ upperTriangle names m)
    ∧ (∀ p ∈ cmIndexPairs names.length, p.1 < p.2 ∧ p.2 < names.length)
    ∧ (cmIndexPairs names.length).Nodup
    ∧ ((upperTriangle names m).length ≤ n →
        (get_top_correlations names m n).Perm (upperTriangle names m))
    ∧ ∀ k : ℚ, ∃ t,
        (upperTriangle names m).filter (fun a => decide (absKey a = k)) =
          (get_top_correlations names m n).filter (fun a => decide (absKey a = k)) ++ t := by
  refine ⟨?_, ?_, ?_, fun p hp => mem_cmIndexPairs names.length p hp,
    cmIndexPairs_nodup _, ?_, ?_⟩
  · simp [get_top_correlations]
  · exact (sortByDesc_pairwise absKey (upperTriangle names m)).sublist
      (List.take_sublist n _)
  · intro t ht
    exact (sortByDesc_perm absKey (upperTriangle names m)).mem_iff.mp
      (List.take_subset n _ ht)
  · intro hlen
    have hle : (sortByDesc absKey (upperTriangle names m)).length ≤ n := by
      rwa [(sortByDesc_perm absKey (upperTriangle names m)).length_eq]
    rw [get_top_correlations, List.take_of_length_le hle]
    exact sortByDesc_perm _ _
  · intro k
    rcases filter_take_exists (sortByDesc absKey (upperTriangle names m))
      (fun a => decide (absKey a = k)) n with ⟨t, ht⟩
    refine ⟨t, ?_⟩
    rw [show (get_top_correlations names m n).filter (fun a => decide (absKey a = k)) =
      ((sortByDesc absKey (upperTriangle names m)).take n).filter
        (fun a => decide (absKey a = k)) from rfl,
      ← filter_sortByDesc absKey (upperTriangle names m) k]
    exact ht

theorem top_correlations_spec_w :
    (get_top_correlations ["A", "B"] [[1, 2], [2, 1]] 1).length ≤ 1
    ∧ (get_top_correlations ["A", "B"] [[1, 2], [2, 1]] 1).Pairwise
        (fun a b => absKey b ≤ absKey a)
    ∧ (∀ t ∈ get_top_correlations ["A", "B"] [[1, 2], [2, 1]] 1,
        t ∈ upperTriangle ["A", "B"] [[1, 2], [2, 1]])
    ∧ (∀ p ∈ cmIndexPairs (["A", "B"] : List String).length,
        p.1 < p.2 ∧ p.2 < (["A", "B"] : List String).length)
    ∧ (cmIndexPairs (["A", "B"] : List String).length).Nodup
    ∧ ((upperTriangle ["A", "B"] [[1, 2], [2, 1]]).length ≤ 1 →
        (get_top_correlations ["A", "B"] [[1, 2], [2, 1]] 1).Perm
          (upperTriangle ["A", "B"] [[1, 2], [2, 1]]))
    ∧ ∀ k : ℚ, ∃ t,
        (upperTriangle ["A", "B"] [[1, 2], [2, 1]]).filter
            (fun a => decide (absKey a = k)) =
          (get_top_correlations ["A", "B"] [[1, 2], [2, 1]] 1).filter
            (fun a => decide (absKey a = k)) ++ t :=
  top_correlations_spec ["A", "B"] [[1, 2], [2, 1]] 1

/-- C9 counterexample: on a symmetric unit-diagonal matrix where the
pairs (0,3) and (1,2) tie in absolute coefficient, the source (row-major
upper-triangle enumeration, stable sort) returns the (0,3) triple first,
while the claim's column-then-row encounter order demands the (1,2)
triple first: the claimed output differs from the computed one. -/
theorem top_correlations_claim_cex :
    get_top_correlations ["A", "B", "C", "D"]
        [[1, 1, 2, 9], [1, 1, 9, 3], [2, 9, 1, 4], [9, 3, 4, 1]] 2 =
      [("A", "D", 9), ("B", "C", 9)]
    ∧ topCorrelationsColOrder ["A", "B", "C", "D"]
        [[1, 1, 2, 9], [1, 1, 9, 3], [2, 9, 1, 4], [9, 3, 4, 1]] 2 =
      [("B", "C", 9), ("A", "D", 9)]
    ∧ get_top_correlations ["A", "B", "C", "D"]
        [[1, 1, 2, 9], [1, 1, 9, 3], [2, 9, 1, 4], [9, 3, 4, 1]] 2 ≠
      topCorrelationsColOrder ["A", "B", "C", "D"]
        [[1, 1, 2, 9], [1, 1, 9, 3], [2, 9, 1, 4], [9, 3, 4, 1]] 2 := by
  refine ⟨by decide, by decide, by decide⟩

/-! ### World-statistics claim -/

/-- C7 (amended): `get_world_statistics` filters the year's column to
its non-missing values; `country_count` is the non-missing count (not
the dataset's row count); mean, median, max and min agree with the
aggregate definitions of `calculate_statistics` on the same column —
but its standard deviation is the SAMPLE deviation (pandas `Series.std`,
ddof = 1): its square is the population variance of `statistics` scaled
by `count/(count-1)`, and it is NaN (not 0) on fewer than two values. -/
theorem world_statistics_spec (df : List Row) (y : Int) :
    (get_world_statistics df y).country_count =
      ((yearColumn df y).filter (fun x => x.isSome)).length
    ∧ ∀ s, calculate_statistics (yearColumn df y) = some s →
        ((get_world_statistics df y).avg_gdp = some s.mean
        ∧ (get_world_statistics df y).median_gdp = some s.median
        ∧ (get_world_statistics df y).max_gdp = some s.max
        ∧ (get_world_statistics df y).min_gdp = some s.min
        ∧ (get_world_statistics df y).country_count = s.count
        ∧ (2 ≤ s.count →
            (get_world_statistics df y).std_sq_gdp =
              some (s.std_sq * s.count / ((s.count : ℚ) - 1)))
        ∧ (s.count < 2 → (get_world_statistics df y).std_sq_gdp = none)) := by
  constructor
  · exact length_filterMap_id (yearColumn df y)
  · intro s hs
    unfold calculate_statistics at hs
    by_cases hv : (yearColumn df y).filterMap id = []
    · simp [hv] at hs
    · simp only [hv, if_neg, ite_false, Option.some_inj] at hs
      subst hs
      have hdata : world_year_data df y = (yearColumn df y).filterMap id := rfl
      have hn : (world_year_data df y).length ≠ 0 := by
        rw [hdata]
        simpa using hv
      refine ⟨?_, ?_, ?_, ?_, rfl, ?_, ?_⟩
      · show (if (world_year_data df y).length = 0 then none else _) = _
        rw [if_neg hn, hdata, reduceSum_eq_sum]
      · show (if (world_year_data df y).length = 0 then none else _) = _
        rw [if_neg hn, hdata]
      · show (match world_year_data df y with
          | [] => none
          | _ :: _ => some (reduceMax (world_year_data df y))) = _
        rw [hdata]
        rcases hl : (yearColumn df y).filterMap id with _ | ⟨a, l⟩
        · exact absurd hl hv
        · rfl
      · show (match world_year_data df y with
          | [] => none
          | _ :: _ => some (reduceMin (world_year_data df y))) = _
        rw [hdata]
        rcases hl : (yearColumn df y).filterMap id with _ | ⟨a, l⟩
        · exact absurd hl hv
        · rfl
      · intro h2
        show (if (world_year_data df y).length < 2 then none else _) = _
        have hcond : ¬ (world_year_data df y).length < 2 := by
          rw [hdata]
          simp only [Stats.count] at h2
          omega
        rw [if_neg hcond, hdata]
        congr 1
        have hlen : ((yearColumn df y).filterMap id).length ≠ 0 := by simpa using hv
        have hc1 : ((((yearColumn df y).filterMap id).length - 1 : ℕ) : ℚ) =
            (((yearColumn df y).filterMap id).length : ℚ) - 1 := by
          have : 1 ≤ ((yearColumn df y).filterMap id).length := by omega
          push_cast [Nat.cast_sub this]
          ring
        rw [hc1]
        have hq0 : (((yearColumn df y).filterMap id).length : ℚ) ≠ 0 := by
          exact_mod_cast hlen
        field_simp
      · intro h2
        show (if (world_year_data df y).length < 2 then none else _) = _
        have hcond : (world_year_data df y).length < 2 := by
          rw [hdata]
          simp only [Stats.count] at h2
          omega
        rw [if_pos hcond]

theorem world_statistics_spec_w :
    (get_world_statistics
        [⟨"A", "X", [(2000, some 0)]⟩, ⟨"B", "X", [(2000, some 2)]⟩,
          ⟨"C", "X", [(2000, none)]⟩] 2000).country_count =
      ((yearColumn [⟨"A", "X", [(2000, some 0)]⟩, ⟨"B", "X", [(2000, some 2)]⟩,
          ⟨"C", "X", [(2000, none)]⟩] 2000).filter (fun x => x.isSome)).length
    ∧ ∀ s, calculate_statistics (yearColumn
          [⟨"A", "X", [(2000, some 0)]⟩, ⟨"B", "X", [(2000, some 2)]⟩,
            ⟨"C", "X", [(2000, none)]⟩] 2000) = some s →
        ((get_world_statistics [⟨"A", "X", [(2000, some 0)]⟩,
            ⟨"B", "X", [(2000, some 2)]⟩, ⟨"C", "X", [(2000, none)]⟩] 2000).avg_gdp =
          some s.mean
        ∧ (get_world_statistics [⟨"A", "X", [(2000, some 0)]⟩,
            ⟨"B", "X", [(2000, some 2)]⟩, ⟨"C", "X", [(2000, none)]⟩] 2000).median_gdp =
          some s.median
        ∧ (get_world_statistics [⟨"A", "X", [(2000, some 0)]⟩,
            ⟨"B", "X", [(2000, some 2)]⟩, ⟨"C", "X", [(2000, none)]⟩] 2000).max_gdp =
          some s.max
        ∧ (get_world_statistics [⟨"A", "X", [(2000, some 0)]⟩,
            ⟨"B", "X", [(2000, some 2)]⟩, ⟨"C", "X", [(2000, none)]⟩] 2000).min_gdp =
          some s.min
        ∧ (get_world_statistics [⟨"A", "X", [(2000, some 0)]⟩,
            ⟨"B", "X", [(2000, some 2)]⟩, ⟨"C", "X", [(2000, none)]⟩] 2000).country_count =
          s.count
        ∧ (2 ≤ s.count →
            (get_world_statistics [⟨"A", "X", [(2000, some 0)]⟩,
              ⟨"B", "X", [(2000, some 2)]⟩, ⟨"C", "X", [(2000, none)]⟩] 2000).std_sq_gdp =
              some (s.std_sq * s.count / ((s.count : ℚ) - 1)))
        ∧ (s.count < 2 →
            (get_world_statistics [⟨"A", "X", [(2000, some 0)]⟩,
              ⟨"B", "X", [(2000, some 2)]⟩, ⟨"C", "X", [(2000, none)]⟩] 2000).std_sq_gdp =
              none)) :=
  world_statistics_spec
    [⟨"A", "X", [(2000, some 0)]⟩, ⟨"B", "X", [(2000, some 2)]⟩,
      ⟨"C", "X", [(2000, none)]⟩] 2000

/-- C7 counterexample: on the column with non-missing values `[0, 2]`
the reported `std` squares to the SAMPLE variance `2` (pandas
`Series.std`, ddof = 1), not the population variance `1` the claim
demands. -/
theorem world_std_claim_cex :
    world_year_data [⟨"A", "X", [(2000, some 0)]⟩, ⟨"B", "X", [(2000, some 2)]⟩,
        ⟨"C", "X", [(2000, none)]⟩] 2000 = [0, 2]
    ∧ (get_world_statistics [⟨"A", "X", [(2000, some 0)]⟩,
        ⟨"B", "X", [(2000, some 2)]⟩, ⟨"C", "X", [(2000, none)]⟩] 2000).std_sq_gdp ≠
      some ((([(0 : ℚ), 2].map
        (fun x => (x - ([(0 : ℚ), 2].sum / ([(0 : ℚ), 2].length : ℚ))) ^ 2)).sum) /
        ([(0 : ℚ), 2].length : ℚ)) := by
  have hcol : world_year_data [⟨"A", "X", [(2000, some 0)]⟩,
      ⟨"B", "X", [(2000, some 2)]⟩, ⟨"C", "X", [(2000, none)]⟩] 2000 = [0, 2] := rfl
  refine ⟨hcol, ?_⟩
  have h2 : (get_world_statistics [⟨"A", "X", [(2000, some 0)]⟩,
      ⟨"B", "X", [(2000, some 2)]⟩, ⟨"C", "X", [(2000, none)]⟩] 2000).std_sq_gdp =
      some 2 := by
    simp only [get_world_statistics]
    rw [hcol]
    norm_num [List.sum_cons]
  rw [h2]
  intro hc
  have := Option.some_inj.mp hc
  norm_num [List.sum_cons] at this

/-! ### Module-level average-helper claim -/

/-- C10: both module-level average helpers drop every entry that is not
strictly greater than zero from numerator and denominator alike — the
regional helper drops non-positive per-year regional totals, the
country helper drops missing cells (NaN compares false against 0 in
Python) and non-positive present cells, so a legitimate zero or
negative entry behaves exactly like a missing one — and both return `0`
(not `NoData`) when nothing positive remains or when no row matches the
requested name. -/
theorem average_helpers_spec :
    (∀ df r ycols, calculate_regional_average df r ycols =
      meanOfPositives (ycols.map (fun y => colSum (filter_by_region df r) y)))
    ∧ (∀ df c ycols, calculate_country_average df c ycols =
        if filter_by_country df c = [] then 0
        else meanOfPositivesOpt (ycols.map
          (fun y => ((filter_by_country df c).headD default).val y)))
    ∧ (∀ (p s : List ℚ) (t : ℚ), t ≤ 0 →
        meanOfPositives (p ++ t :: s) = meanOfPositives (p ++ s))
    ∧ (∀ (p s : List (Option ℚ)) (v : ℚ), v ≤ 0 →
        meanOfPositivesOpt (p ++ some v :: s) = meanOfPositivesOpt (p ++ none :: s))
    ∧ (∀ l : List ℚ, l.filter (fun x => decide (0 < x)) = [] → meanOfPositives l = 0)
    ∧ (∀ df c ycols, filter_by_country df c = [] →
        calculate_country_average df c ycols = 0)
    ∧ (∀ df r ycols, filter_by_region df r = [] →
        calculate_regional_average df r ycols = 0) := by
  have hfilter : ∀ (p s : List ℚ) (t : ℚ), t ≤ 0 →
      (p ++ t :: s).filter (fun x => decide (0 < x)) =
        (p ++ s).filter (fun x => decide (0 < x)) := by
    intro p s t ht
    rw [List.filter_append, List.filter_append, List.filter_cons]
    rw [if_neg (by simpa using not_lt.mpr ht)]
  have hpos : ∀ (p s : List ℚ) (t : ℚ), t ≤ 0 →
      meanOfPositives (p ++ t :: s) = meanOfPositives (p ++ s) := by
    intro p s t ht
    simp only [meanOfPositives]
    rw [hfilter p s t ht]
  have hreg : ∀ (df : List Row) (r : String) (ycols : List Int),
      calculate_regional_average df r ycols =
        meanOfPositives (ycols.map (fun y => colSum (filter_by_region df r) y)) := by
    intro df r ycols
    unfold calculate_regional_average meanOfPositives
    by_cases h : (ycols.map (fun y => colSum (filter_by_region df r) y)).filter
        (fun x => decide (0 < x)) = []
    · rw [if_pos h, if_pos h]
    · rw [if_neg h, if_neg h, reduceSum_eq_sum]
  have hcountry : ∀ (df : List Row) (c : String) (ycols : List Int),
      calculate_country_average df c ycols =
        if filter_by_country df c = [] then 0
        else meanOfPositivesOpt (ycols.map
          (fun y => ((filter_by_country df c).headD default).val y)) := by
    intro df c ycols
    unfold calculate_country_average meanOfPositivesOpt meanOfPositives
    by_cases hempty : filter_by_country df c = []
    · rw [if_pos hempty, if_pos hempty]
    · rw [if_neg hempty, if_neg hempty]
      by_cases h : ((ycols.map
          (fun y => ((filter_by_country df c).headD default).val y)).filterMap
            id).filter (fun x => decide (0 < x)) = []
      · rw [if_pos h, if_pos h]
      · rw [if_neg h, if_neg h, reduceSum_eq_sum]
  refine ⟨hreg, hcountry, hpos, ?_, ?_, ?_, ?_⟩
  · intro p s v hv
    unfold meanOfPositivesOpt
    rw [List.filterMap_append, List.filterMap_append]
    simp only [List.filterMap_cons, id]
    exact hpos _ _ v hv
  · intro l h
    unfold meanOfPositives
    rw [if_pos h]
  · intro df c ycols h
    rw [hcountry df c ycols, if_pos h]
  · intro df r ycols h
    rw [hreg df r ycols]
    have hz : ycols.map (fun y => colSum (filter_by_region df r) y) =
        ycols.map (fun _ => (0 : ℚ)) := by
      apply List.map_congr_left
      intro y _
      rw [h]
      rfl
    rw [hz]
    unfold meanOfPositives
    rw [if_pos (List.filter_eq_nil_iff.mpr (fun a ha => by
      obtain ⟨_, _, rfl⟩ := List.mem_map.mp ha
      simp))]

end GDP
